import Mathlib

/-!
Verification development for the neo-mmd asset-deployment program.

The program imports a 3D asset as a tree of nodes (name, 4x4 transform,
mesh-index references, children) and deploys it into a live scene as a
tree of objects, splitting multi-mesh nodes into synthetic children and
resolving mesh/material references against two resource tables.

The embedding below translates the deployment algorithm (`deploy_parts`),
the mesh-table construction and the per-frame camera update from
`src/main.rs` into Lean.  Failing `unwrap` calls are modelled by an
`Except` monad carrying the error taxonomy named in the specification.
-/

namespace NeoMMD

/-- Imported mesh payload: the raw mesh data held in the importer's flat
mesh list.  Its internal structure is irrelevant to the deployment
algorithm, so it is modelled as an opaque tag. -/
abbrev Mesh := Nat

/-- Engine-side mesh handle, created by `MeshHandle::new(Mesh { data: mesh })`. -/
structure MeshHandle where
  data : Mesh
  deriving DecidableEq

/-- Models `MeshHandle::new`, wrapping the imported mesh data. -/
def MeshHandle.new (m : Mesh) : MeshHandle := ⟨m⟩

/-- Engine-side material handle.  Materials are opaque to the deployment
algorithm, so a handle is just a tag. -/
structure MaterialHandle where
  id : Nat
  deriving DecidableEq

/-- The importer's 4x4 matrix with russimp's field names `a1 .. d4`
(`aN` = row 1 entry of column `N`, etc.).  Scalars are modelled as `ℚ`:
the deployment algorithm only moves matrices around, it never computes
with them. -/
structure Matrix4x4 where
  a1 : ℚ
  a2 : ℚ
  a3 : ℚ
  a4 : ℚ
  b1 : ℚ
  b2 : ℚ
  b3 : ℚ
  b4 : ℚ
  c1 : ℚ
  c2 : ℚ
  c3 : ℚ
  c4 : ℚ
  d1 : ℚ
  d2 : ℚ
  d3 : ℚ
  d4 : ℚ
  deriving DecidableEq

/-- The element order in which `deploy_parts` passes the russimp matrix to
`Mat4::new` (src/main.rs lines 280-283). -/
def convertMatrix (m : Matrix4x4) : List ℚ :=
  [m.a1, m.b1, m.c1, m.d1, m.a2, m.b2, m.c2, m.d2,
   m.a3, m.b3, m.c3, m.d3, m.a4, m.b4, m.c4, m.d4]

/-- Modelled from the spec: `Transform` is constructed from a 4x4 matrix by
decomposition into position/rotation/scale (done by the r3d engine
collaborator, whose code is not part of this repository).  Decomposition is
injective on the data the program stores, so the transform is represented by
the matrix it was built from; no claim inspects decomposed fields of a
deployed object's transform. -/
structure Transform where
  mat : List ℚ
  deriving DecidableEq

/-- Models `Transform::from_mat4`. -/
def Transform.from_mat4 (m : List ℚ) : Transform := ⟨m⟩

/-- An import node, as consumed by `deploy_parts`: name, local 4x4
transformation, mesh-index references (russimp `u32` indices, modelled as
`Nat`), ordered children. -/
inductive Node : Type where
  | mk : String → Matrix4x4 → List Nat → List Node → Node

/-- The node's name. -/
def Node.name : Node → String
  | .mk n _ _ _ => n

/-- The node's local transformation matrix. -/
def Node.transformation : Node → Matrix4x4
  | .mk _ t _ _ => t

/-- The node's ordered list of mesh-index references. -/
def Node.meshes : Node → List Nat
  | .mk _ _ m _ => m

/-- The node's ordered list of child nodes. -/
def Node.children : Node → List Node
  | .mk _ _ _ c => c

/-- A live-scene object, as produced by deployment.  Modelled from the spec:
an Object owns an optional Transform, an optional renderable binding
(mesh handle + material handle, the `MeshRenderer` component), and child
objects; `set_parent` attaches an object at the end of the new parent's
child set, so the child list below is in attachment order. -/
inductive Object : Type where
  | mk : String → Option Transform → Option (MeshHandle × MaterialHandle) → List Object → Object

/-- The object's name. -/
def Object.name : Object → String
  | .mk n _ _ _ => n

/-- The object's transform, if it was created with one. -/
def Object.transform : Object → Option Transform
  | .mk _ t _ _ => t

/-- The object's renderable binding (`MeshRenderer` mesh + material), if any. -/
def Object.renderable : Object → Option (MeshHandle × MaterialHandle)
  | .mk _ _ r _ => r

/-- The object's attached children, in attachment order. -/
def Object.children : Object → List Object
  | .mk _ _ _ c => c

/-- Attach further children (by `set_parent`) at the end of the child set. -/
def Object.attach : Object → List Object → Object
  | .mk n t r cs, more => .mk n t r (cs ++ more)

/-- Error taxonomy of the deployment algorithm (spec section 7).  In the
source both failures are `.unwrap()` panics on a table lookup. -/
inductive DeployError : Type where
  | MaterialNotFound
  | MeshIndexOutOfRange
  deriving DecidableEq

/-- Models a Rust `.unwrap()` on an `Option` produced by a table lookup:
a missing entry aborts deployment with the given error. -/
def unwrap {α : Type} (e : DeployError) : Option α → Except DeployError α
  | some a => .ok a
  | none => .error e

/-- The synthetic-children loop of `deploy_parts` (src/main.rs lines
319-339): for each mesh index, in order, look up the node's material and the
mesh, and create a synthetic child object named `"<name>-mesh-<position>"`
with no transform and a renderable binding.  `index` is the enumeration
counter, starting at 0. -/
def syntheticChildren (materials : String → Option MaterialHandle)
    (meshTable : Nat → Option MeshHandle) (name : String) :
    List Nat → Nat → Except DeployError (List Object)
  | [], _ => .ok []
  | m :: rest, index => do
    let material ← unwrap .MaterialNotFound (materials name)
    let mesh ← unwrap .MeshIndexOutOfRange (meshTable m)
    let os ← syntheticChildren materials meshTable name rest (index + 1)
    .ok (Object.mk (name ++ "-mesh-" ++ toString index) none (some (mesh, material)) [] :: os)

mutual

/-- The core recursive deployment algorithm `deploy_parts` (src/main.rs
lines 266-349): deploy all children first, then branch on the node's
mesh-reference count (exactly one mesh: a renderable object; otherwise a
container with one synthetic child per mesh), and finally reparent the
deployed children under the node's object. -/
def deploy (materials : String → Option MaterialHandle)
    (meshTable : Nat → Option MeshHandle) : Node → Except DeployError Object
  | .mk name transformation meshes nodeChildren => do
    let children ← deployList materials meshTable nodeChildren
    let matrix := convertMatrix transformation
    let object ←
      if h : meshes.length = 1 then do
        let material ← unwrap .MaterialNotFound (materials name)
        let mesh ← unwrap .MeshIndexOutOfRange (meshTable (meshes.get ⟨0, by omega⟩))
        .ok (Object.mk name (some (Transform.from_mat4 matrix)) (some (mesh, material)) [])
      else do
        let synth ← syntheticChildren materials meshTable name meshes 0
        .ok (Object.mk name (some (Transform.from_mat4 matrix)) none synth)
    .ok (object.attach children)

/-- Deploys a list of sibling nodes in order (the `Vec::from_iter` over
`node.children` in src/main.rs lines 272-277). -/
def deployList (materials : String → Option MaterialHandle)
    (meshTable : Nat → Option MeshHandle) : List Node → Except DeployError (List Object)
  | [] => .ok []
  | n :: rest => do
    let o ← deploy materials meshTable n
    let os ← deployList materials meshTable rest
    .ok (o :: os)

end

mutual

/-- Number of objects in a deployed object tree (the object itself, its
synthetic mesh children, and all deployed descendants). -/
def countObjects : Object → Nat
  | .mk _ _ _ cs => 1 + countList cs

/-- Total number of objects in a list of deployed object trees. -/
def countList : List Object → Nat
  | [] => 0
  | o :: os => countObjects o + countList os

end

mutual

/-- The object count predicted by the specification: 1 per node with zero
or one mesh reference, 1 + mesh-count per node with two or more, summed
over the import tree. -/
def expectedCount : Node → Nat
  | .mk _ _ meshes children =>
    (if meshes.length ≤ 1 then 1 else 1 + meshes.length) + expectedList children

/-- Specified object count summed over a list of import nodes. -/
def expectedList : List Node → Nat
  | [] => 0
  | n :: rest => expectedCount n + expectedList rest

end

/-- MeshTable construction (src/main.rs lines 258-264): enumerate the
importer's flat mesh list and pair each position, cast to `u32`
(hence the `% 2 ^ 32`), with a fresh handle wrapping the mesh at that
position.  The resulting pair list is fed to `HashMap::from_iter` in order. -/
def meshPairs : List Mesh → Nat → List (Nat × MeshHandle)
  | [], _ => []
  | m :: rest, index => (index % 2 ^ 32, MeshHandle.new m) :: meshPairs rest (index + 1)

/-- The `meshes` table of src/main.rs: the insertion sequence built from the
importer's flat mesh list, starting the enumeration at 0. -/
def meshes (l : List Mesh) : List (Nat × MeshHandle) := meshPairs l 0

/-- Lookup in a `HashMap` built by `from_iter` from an insertion sequence:
a later insertion with the same key overwrites an earlier one, so the
stored value for `k` is the value of the last pair whose key is `k`. -/
def tableGet (ps : List (Nat × MeshHandle)) (k : Nat) : Option MeshHandle :=
  ps.foldl (fun acc p => if p.1 = k then some p.2 else acc) none

/-- The subtree relation on import nodes: `Occurs n t` holds when `n` is
`t` itself or a node of `t`'s subtree.  Used to state that a failure deep
in the tree aborts the whole deployment. -/
inductive Occurs : Node → Node → Prop where
  | refl (n : Node) : Occurs n n
  | child {n c : Node} {r : Node} : c ∈ r.children → Occurs n c → Occurs n r

/-! Camera-update model (src/main.rs lines 362-392).

The vector/quaternion operations live in the r3d engine collaborator, not
in this repository, and are modelled from the spec over `ℝ`.  The camera
object is created at the scene root, so its world rotation equals its
local rotation. -/

/-- Modelled from the spec: a 3-vector of real scalars (r3d `Vec3`). -/
structure Vec3 where
  x : ℝ
  y : ℝ
  z : ℝ

/-- Modelled from the spec: componentwise vector addition. -/
def Vec3.add (a b : Vec3) : Vec3 := ⟨a.x + b.x, a.y + b.y, a.z + b.z⟩

instance : Add Vec3 := ⟨Vec3.add⟩

/-- Modelled from the spec: scalar-vector multiplication. -/
def Vec3.smul (c : ℝ) (v : Vec3) : Vec3 := ⟨c * v.x, c * v.y, c * v.z⟩

instance : SMul ℝ Vec3 := ⟨Vec3.smul⟩

/-- The engine's world-up unit vector `Vec3::UP`. -/
def Vec3.UP : Vec3 := ⟨0, 1, 0⟩

/-- The engine's unit vector `Vec3::RIGHT`. -/
def Vec3.RIGHT : Vec3 := ⟨1, 0, 0⟩

/-- Modelled from the spec: a quaternion (r3d `Quat`), components `x y z w`. -/
structure Quat where
  x : ℝ
  y : ℝ
  z : ℝ
  w : ℝ

/-- Modelled from the spec: the Hamilton product of two quaternions. -/
def Quat.mul (p q : Quat) : Quat :=
  ⟨p.w * q.x + p.x * q.w + p.y * q.z - p.z * q.y,
   p.w * q.y - p.x * q.z + p.y * q.w + p.z * q.x,
   p.w * q.z + p.x * q.y - p.y * q.x + p.z * q.w,
   p.w * q.w - p.x * q.x - p.y * q.y - p.z * q.z⟩

instance : Mul Quat := ⟨Quat.mul⟩

/-- Modelled from the spec: quaternion conjugation (`conjugated` in r3d). -/
def Quat.conjugated (q : Quat) : Quat := ⟨-q.x, -q.y, -q.z, q.w⟩

/-- Modelled from the spec: rotating a vector by a quaternion
(`v * q` in r3d), via the sandwich product `q p q⁻¹` on the pure
quaternion `p` built from `v`. -/
def Quat.rotate (q : Quat) (v : Vec3) : Vec3 :=
  let p := q * Quat.mk v.x v.y v.z 0 * q.conjugated
  ⟨p.x, p.y, p.z⟩

/-- Modelled from the spec: the standard axis-angle quaternion,
`f32::to_radians`-style angles already converted to radians. -/
noncomputable def Quat.fromAxisAngle (axis : Vec3) (angle : ℝ) : Quat :=
  ⟨axis.x * Real.sin (angle / 2), axis.y * Real.sin (angle / 2),
   axis.z * Real.sin (angle / 2), Real.cos (angle / 2)⟩

/-- Degrees to radians (`f32::to_radians`). -/
noncomputable def radians (deg : ℝ) : ℝ := deg * Real.pi / 180

/-- The camera's transform component: position, rotation, scale.  The
camera object sits at the scene root, so world rotation = local rotation. -/
structure CamTransform where
  position : Vec3
  rotation : Quat
  scale : Vec3

/-- Modelled from the spec: the transform's forward basis vector in world
space, obtained by rotating a fixed local axis by the rotation. -/
def CamTransform.forward (t : CamTransform) : Vec3 := t.rotation.rotate ⟨0, 0, 1⟩

/-- Modelled from the spec: the transform's right basis vector in world
space. -/
def CamTransform.right (t : CamTransform) : Vec3 := t.rotation.rotate ⟨1, 0, 0⟩

/-- The arithmetic of the per-frame `update` (src/main.rs lines 362-392),
after the eight keyboard-axis reads succeeded: move along forward by
`delta * (w - s)`, then along right by `delta * (d - a)`, then pitch by
`delta * (up - down) * 120°` around `Vec3::RIGHT` and yaw by
`delta * (left - right) * 120°` around the world up axis expressed in
local space. -/
noncomputable def updateCore (delta w s d a up down lft rgt : ℝ)
    (t : CamTransform) : CamTransform :=
  let z := w - s
  let x := d - a
  let vertical := up - down
  let horizontal := lft - rgt
  let forward := t.forward
  let rightv := t.right
  let world_to_local_rotation := t.rotation.conjugated
  let world_up := world_to_local_rotation.rotate Vec3.UP
  let position1 := t.position + (delta * z) • forward
  let position2 := position1 + (delta * x) • rightv
  let rotation1 := t.rotation * Quat.fromAxisAngle Vec3.RIGHT (delta * vertical * radians 120)
  let rotation2 := rotation1 * Quat.fromAxisAngle world_up (delta * horizontal * radians 120)
  { t with position := position2, rotation := rotation2 }

/-- The per-frame `update` handler: query the eight named keyboard axes
(each read is `.unwrap()`ed, so a missing registration is fatal and is
modelled by `none`), then apply the camera movement arithmetic. -/
noncomputable def update (input : String → Option ℝ) (delta : ℝ)
    (t : CamTransform) : Option CamTransform :=
  match input "w", input "s", input "d", input "a",
      input "up", input "down", input "left", input "right" with
  | some w, some s, some d, some a, some up, some down, some lft, some rgt =>
    some (updateCore delta w s d a up down lft rgt t)
  | _, _, _, _, _, _, _, _ => none

/-! Concrete fixtures used by the closed scenario theorems and by
witnesses. -/

/-- A concrete import matrix (the identity). -/
def M0 : Matrix4x4 := ⟨1, 0, 0, 0, 0, 1, 0, 0, 0, 0, 1, 0, 0, 0, 0, 1⟩

/-- MaterialTable of the end-to-end scenario: entries for "A" and "B". -/
def mats0 : String → Option MaterialHandle :=
  fun n => if n = "A" then some ⟨1⟩ else if n = "B" then some ⟨2⟩ else none

/-- MeshTable of the end-to-end scenario: entries for indices 0, 1, 2. -/
def tbl0 : Nat → Option MeshHandle :=
  fun i => if i < 3 then some (MeshHandle.new i) else none

/-- Scenario node `A{mesh:[0]}`. -/
def nodeA : Node := .mk "A" M0 [0] []

/-- Scenario node `B{mesh:[1,2]}`. -/
def nodeB : Node := .mk "B" M0 [1, 2] []

/-- Scenario tree `root{children:[A, B]}` with no meshes on the root. -/
def root0 : Node := .mk "root" M0 [] [nodeA, nodeB]

/-- The object tree the end-to-end scenario is specified to produce. -/
def expectedRoot0 : Object :=
  .mk "root" (some (Transform.from_mat4 (convertMatrix M0))) none
    [.mk "A" (some (Transform.from_mat4 (convertMatrix M0))) (some (⟨0⟩, ⟨1⟩)) [],
     .mk "B" (some (Transform.from_mat4 (convertMatrix M0))) none
       [.mk "B-mesh-0" none (some (⟨1⟩, ⟨2⟩)) [],
        .mk "B-mesh-1" none (some (⟨2⟩, ⟨2⟩)) []]]

/-- MaterialTable of the counting scenario. -/
def mats2 : String → Option MaterialHandle :=
  fun n => if n = "one" then some ⟨3⟩ else if n = "three" then some ⟨4⟩ else none

/-- MeshTable of the counting scenario: entries for indices 0-3. -/
def tbl2 : Nat → Option MeshHandle :=
  fun i => if i < 4 then some (MeshHandle.new i) else none

/-- Counting scenario: a root with zero meshes, one child with one mesh
and one child with three meshes. -/
def root2 : Node := .mk "scene" M0 [] [.mk "one" M0 [0] [], .mk "three" M0 [1, 2, 3] []]

/-- Material table whose only entry is "C". -/
def matsC3 : String → Option MaterialHandle := fun n => if n = "C" then some ⟨7⟩ else none

/-- Mesh table whose only entry is index 0. -/
def tblC3 : Nat → Option MeshHandle := fun i => if i = 0 then some (MeshHandle.new 0) else none

/-- A node whose name "N" has no material entry and that references mesh 0,
with a child "C" whose mesh index 5 is missing from the mesh table. -/
def nodeC3 : Node := .mk "N" M0 [0] [.mk "C" M0 [5] []]

/-- A leaf node with one mesh whose name "X" will have no material entry. -/
def nodeW3 : Node := .mk "X" M0 [0] []

/-- Material table with entries for "N" and "Y" only. -/
def matsC5 : String → Option MaterialHandle :=
  fun n => if n = "N" then some ⟨1⟩ else if n = "Y" then some ⟨2⟩ else none

/-- A node "N" with a valid material but an out-of-range mesh index 9,
whose child "C" has a valid mesh index and a missing material. -/
def nodeC5 : Node := .mk "N" M0 [9] [.mk "C" M0 [0] []]

/-- A leaf node "Y" with a valid material and out-of-range mesh index 9. -/
def nodeW5 : Node := .mk "Y" M0 [9] []

/-- A zero-mesh leaf node whose name "Z" has no material entry. -/
def nodeW9 : Node := .mk "Z" M0 [] []

/-- A two-mesh node "B2" with one ordinary child "A". -/
def nodeW10 : Node := .mk "B2" M0 [1, 2] [nodeA]

/-- Material table with entries for "A" and "B2". -/
def matsW10 : String → Option MaterialHandle :=
  fun n => if n = "A" then some ⟨1⟩ else if n = "B2" then some ⟨5⟩ else none

/-- The object tree the counting scenario deploys to. -/
def w2Object : Object :=
  .mk "scene" (some (Transform.from_mat4 (convertMatrix M0))) none
    [.mk "one" (some (Transform.from_mat4 (convertMatrix M0))) (some (⟨0⟩, ⟨3⟩)) [],
     .mk "three" (some (Transform.from_mat4 (convertMatrix M0))) none
       [.mk "three-mesh-0" none (some (⟨1⟩, ⟨4⟩)) [],
        .mk "three-mesh-1" none (some (⟨2⟩, ⟨4⟩)) [],
        .mk "three-mesh-2" none (some (⟨3⟩, ⟨4⟩)) []]]

/-- The object tree `nodeW10` deploys to: the two synthetic mesh children
precede the deployed import child "A". -/
def w10Object : Object :=
  .mk "B2" (some (Transform.from_mat4 (convertMatrix M0))) none
    [.mk "B2-mesh-0" none (some (⟨1⟩, ⟨5⟩)) [],
     .mk "B2-mesh-1" none (some (⟨2⟩, ⟨5⟩)) [],
     .mk "A" (some (Transform.from_mat4 (convertMatrix M0))) (some (⟨0⟩, ⟨1⟩)) []]

/-- A concrete camera transform used to instantiate update-tick witnesses. -/
def camT0 : CamTransform := ⟨⟨0, 0, 0⟩, ⟨0, 0, 0, 1⟩, ⟨1, 1, 1⟩⟩

/-- The keyboard-axis readings of the update scenario: "w" reads 1, every
other registered axis reads 0. -/
def c7Input : String → Option ℝ := fun n => if n = "w" then some 1 else some 0

/-! Helper lemmas about the `Except` plumbing. -/

theorem exceptBind_ok_iff {ε α β : Type} {a : Except ε α} {f : α → Except ε β} {b : β} :
    a >>= f = Except.ok b ↔ ∃ x, a = Except.ok x ∧ f x = Except.ok b := by
  cases a with
  | error e => simp [Bind.bind, Except.bind]
  | ok x => simp [Bind.bind, Except.bind]

theorem exceptBind_error {ε α β : Type} (e : ε) (f : α → Except ε β) :
    (Except.error e : Except ε α) >>= f = Except.error e := rfl

theorem unwrap_ok_iff {α : Type} {e : DeployError} {o : Option α} {a : α} :
    unwrap e o = Except.ok a ↔ o = some a := by
  cases o <;> simp [unwrap]

theorem unwrap_none {α : Type} (e : DeployError) : unwrap (α := α) e none = Except.error e := rfl

/-! Structural lemmas about `syntheticChildren`. -/

theorem syntheticChildren_length {materials : String → Option MaterialHandle}
    {meshTable : Nat → Option MeshHandle} {name : String} :
    ∀ {l : List Nat} {index : Nat} {os : List Object},
      syntheticChildren materials meshTable name l index = Except.ok os →
      os.length = l.length := by
  intro l
  induction l with
  | nil => intro index os h; simp [syntheticChildren] at h; simp [← h]
  | cons m rest ih =>
    intro index os h
    simp only [syntheticChildren] at h
    rw [exceptBind_ok_iff] at h
    obtain ⟨material, hmat, h⟩ := h
    rw [exceptBind_ok_iff] at h
    obtain ⟨mesh, hmesh, h⟩ := h
    rw [exceptBind_ok_iff] at h
    obtain ⟨os', hos', h⟩ := h
    cases h
    simpa using ih hos'

theorem syntheticChildren_count {materials : String → Option MaterialHandle}
    {meshTable : Nat → Option MeshHandle} {name : String} :
    ∀ {l : List Nat} {index : Nat} {os : List Object},
      syntheticChildren materials meshTable name l index = Except.ok os →
      countList os = l.length := by
  intro l
  induction l with
  | nil => intro index os h; simp [syntheticChildren] at h; simp [h, countList]
  | cons m rest ih =>
    intro index os h
    simp only [syntheticChildren] at h
    rw [exceptBind_ok_iff] at h
    obtain ⟨material, hmat, h⟩ := h
    rw [exceptBind_ok_iff] at h
    obtain ⟨mesh, hmesh, h⟩ := h
    rw [exceptBind_ok_iff] at h
    obtain ⟨os', hos', h⟩ := h
    cases h
    simp [countList, countObjects, ih hos']
    omega

/-- Inversion principle for a successful `deploy` on a node: the children
deployed first, and the node's object is either the single-mesh renderable
object or a container with synthetic children, with the deployed children
attached at the end. -/
theorem deploy_ok_shape {materials : String → Option MaterialHandle}
    {meshTable : Nat → Option MeshHandle} {name : String} {tr : Matrix4x4}
    {ms : List Nat} {children : List Node} {o : Object}
    (h : deploy materials meshTable (.mk name tr ms children) = Except.ok o) :
    ∃ cs obj, deployList materials meshTable children = Except.ok cs ∧
      o = obj.attach cs ∧
      ((∃ hlen : ms.length = 1, ∃ material mesh,
          materials name = some material ∧
          meshTable (ms.get ⟨0, by omega⟩) = some mesh ∧
          obj = Object.mk name (some (Transform.from_mat4 (convertMatrix tr)))
            (some (mesh, material)) []) ∨
       (ms.length ≠ 1 ∧ ∃ synth,
          syntheticChildren materials meshTable name ms 0 = Except.ok synth ∧
          obj = Object.mk name (some (Transform.from_mat4 (convertMatrix tr))) none synth)) := by
  simp only [deploy] at h
  rw [exceptBind_ok_iff] at h
  obtain ⟨cs, hcs, h⟩ := h
  by_cases hlen : ms.length = 1
  · rw [dif_pos hlen] at h
    rw [exceptBind_ok_iff] at h
    obtain ⟨material, hmat, h⟩ := h
    rw [exceptBind_ok_iff] at h
    obtain ⟨mesh, hmesh, h⟩ := h
    rw [exceptBind_ok_iff] at h
    obtain ⟨y, hy, h⟩ := h
    cases hy
    cases h
    rw [unwrap_ok_iff] at hmat hmesh
    exact ⟨cs, _, hcs, rfl, Or.inl ⟨hlen, material, mesh, hmat, hmesh, rfl⟩⟩
  · rw [dif_neg hlen] at h
    rw [exceptBind_ok_iff] at h
    obtain ⟨synth, hsynth, h⟩ := h
    rw [exceptBind_ok_iff] at h
    obtain ⟨y, hy, h⟩ := h
    cases hy
    cases h
    exact ⟨cs, _, hcs, rfl, Or.inr ⟨hlen, synth, hsynth, rfl⟩⟩

theorem countList_append (xs ys : List Object) :
    countList (xs ++ ys) = countList xs + countList ys := by
  induction xs with
  | nil => simp [countList]
  | cons x xs ih => simp [countList, ih]; omega

mutual

theorem deploy_count_aux (materials : String → Option MaterialHandle)
    (meshTable : Nat → Option MeshHandle) (node : Node) (o : Object)
    (h : deploy materials meshTable node = Except.ok o) :
    countObjects o = expectedCount node := by
  cases node with
  | mk name tr ms children =>
    obtain ⟨cs, obj, hcs, ho, hbranch⟩ := deploy_ok_shape h
    have hchild : countList cs = expectedList children :=
      deployList_count_aux materials meshTable children cs hcs
    subst ho
    rcases hbranch with ⟨hlen, material, mesh, hm, hme, hobj⟩ | ⟨hlen, synth, hs, hobj⟩
    · subst hobj
      simp [Object.attach, countObjects, expectedCount, hchild, hlen, countList]
    · subst hobj
      have hsc : countList synth = ms.length := syntheticChildren_count hs
      simp only [Object.attach, countObjects, expectedCount, countList_append]
      rw [hsc, hchild]
      split <;> omega

theorem deployList_count_aux (materials : String → Option MaterialHandle)
    (meshTable : Nat → Option MeshHandle) (l : List Node) (os : List Object)
    (h : deployList materials meshTable l = Except.ok os) :
    countList os = expectedList l := by
  cases l with
  | nil =>
    simp [deployList] at h
    simp [h, countList, expectedList]
  | cons n rest =>
    simp only [deployList] at h
    rw [exceptBind_ok_iff] at h
    obtain ⟨o, ho, h⟩ := h
    rw [exceptBind_ok_iff] at h
    obtain ⟨os', hos', h⟩ := h
    cases h
    simp [countList, expectedList,
      deploy_count_aux materials meshTable n o ho,
      deployList_count_aux materials meshTable rest os' hos']

end

/-- Claim C1.  The end-to-end scenario: the import tree
`root{children:[A{mesh:[0]}, B{mesh:[1,2]}]}` with a MeshTable containing
indices 0, 1, 2 and a MaterialTable containing "A" and "B" deploys to a
root object carrying a transform and no renderable binding, whose children
are "A" (renderable: mesh 0 with "A"'s material, with its transform) and
"B" (transform, no renderable), where "B" has exactly the two synthetic
children "B-mesh-0" (mesh 1, "B"'s material) and "B-mesh-1" (mesh 2, "B"'s
material), each with no own transform. -/
theorem c1_deploy_end_to_end : deploy mats0 tbl0 root0 = Except.ok expectedRoot0 := rfl

/-- Claim C2.  On every import tree on which deployment succeeds, the total
number of objects created equals the sum over all nodes of 1 for a node
with zero or one mesh reference and 1 + mesh-count for a node with two or
more mesh references. -/
theorem c2_object_count (materials : String → Option MaterialHandle)
    (meshTable : Nat → Option MeshHandle) (node : Node) (o : Object)
    (h : deploy materials meshTable node = Except.ok o) :
    countObjects o = expectedCount node :=
  deploy_count_aux materials meshTable node o h

/-- Witness for C2 on a tree with a zero-mesh root, a one-mesh child and a
three-mesh child. -/
theorem c2_object_count_witness :
    deploy mats2 tbl2 root2 = Except.ok w2Object ∧
    countObjects w2Object = expectedCount root2 :=
  ⟨rfl, c2_object_count mats2 tbl2 root2 w2Object rfl⟩

theorem exceptBind_ok_eval {ε α β : Type} (x : α) (f : α → Except ε β) :
    (Except.ok x : Except ε α) >>= f = f x := rfl

/-- A successful `deployList` deploys exactly the given nodes, in order. -/
theorem deployList_pointwise {materials : String → Option MaterialHandle}
    {meshTable : Nat → Option MeshHandle} :
    ∀ {l : List Node} {os : List Object},
      deployList materials meshTable l = Except.ok os →
      os.length = l.length ∧
      ∀ i (h1 : i < l.length) (h2 : i < os.length),
        deploy materials meshTable (l.get ⟨i, h1⟩) = Except.ok (os.get ⟨i, h2⟩) := by
  intro l
  induction l with
  | nil =>
    intro os h
    simp [deployList] at h
    refine ⟨by simp [h], ?_⟩
    intro i h1 h2
    simp at h1
  | cons n rest ih =>
    intro os h
    simp only [deployList] at h
    rw [exceptBind_ok_iff] at h
    obtain ⟨o, ho, h⟩ := h
    rw [exceptBind_ok_iff] at h
    obtain ⟨os', hos', h⟩ := h
    cases h
    obtain ⟨hlen, hpt⟩ := ih hos'
    refine ⟨by simp [hlen], ?_⟩
    intro i h1 h2
    cases i with
    | zero => exact ho
    | succ j => exact hpt j (by simpa using h1) (by simpa using h2)

/-- Claim C4.  Deployment recurses into every child first, producing the
deployed child objects in the node's child order, and then reparents them,
in that order, at the end of the child set of the node's own object. -/
theorem c4_children_order (materials : String → Option MaterialHandle)
    (meshTable : Nat → Option MeshHandle) (node : Node) (o : Object)
    (h : deploy materials meshTable node = Except.ok o) :
    ∃ cs, deployList materials meshTable node.children = Except.ok cs ∧
      cs.length = node.children.length ∧
      (∀ i (h1 : i < node.children.length) (h2 : i < cs.length),
        deploy materials meshTable (node.children.get ⟨i, h1⟩) = Except.ok (cs.get ⟨i, h2⟩)) ∧
      ∃ pre, o.children = pre ++ cs := by
  cases node with
  | mk name tr ms children =>
    obtain ⟨cs, obj, hcs, ho, hbranch⟩ := deploy_ok_shape h
    obtain ⟨hlen, hpt⟩ := deployList_pointwise hcs
    subst ho
    refine ⟨cs, hcs, hlen, hpt, obj.children, ?_⟩
    cases obj
    simp [Object.attach, Object.children]

/-- Witness for C4 on the two-child scenario tree. -/
theorem c4_children_order_witness :
    deploy mats0 tbl0 root0 = Except.ok expectedRoot0 ∧
    (∃ cs, deployList mats0 tbl0 root0.children = Except.ok cs ∧
      cs.length = root0.children.length ∧
      (∀ i (h1 : i < root0.children.length) (h2 : i < cs.length),
        deploy mats0 tbl0 (root0.children.get ⟨i, h1⟩) = Except.ok (cs.get ⟨i, h2⟩)) ∧
      ∃ pre, expectedRoot0.children = pre ++ cs) :=
  ⟨rfl, c4_children_order mats0 tbl0 root0 expectedRoot0 rfl⟩

/-- Claim C9.  A node with zero mesh references never consults the
MaterialTable for its own name: it deploys successfully into a
transform-carrying object with no renderable binding even when its name
has no MaterialTable entry, as long as its children deploy. -/
theorem c9_zero_mesh_no_material_lookup (materials : String → Option MaterialHandle)
    (meshTable : Nat → Option MeshHandle) (node : Node) (cs : List Object)
    (hmesh : node.meshes = []) (hmat : materials node.name = none)
    (hcs : deployList materials meshTable node.children = Except.ok cs) :
    deploy materials meshTable node =
      Except.ok (Object.mk node.name
        (some (Transform.from_mat4 (convertMatrix node.transformation))) none cs) := by
  cases node with
  | mk name tr ms children =>
    simp only [Node.meshes] at hmesh
    simp only [Node.children] at hcs
    subst hmesh
    simp only [deploy]
    rw [hcs, exceptBind_ok_eval]
    rw [dif_neg (by simp)]
    simp [syntheticChildren, exceptBind_ok_eval, Object.attach, Node.name, Node.transformation]

/-- Witness for C9: a zero-mesh leaf named "Z" deploys even though the
material table has no entry for "Z". -/
theorem c9_zero_mesh_no_material_lookup_witness :
    nodeW9.meshes = [] ∧ matsC3 nodeW9.name = none ∧
    deployList matsC3 tblC3 nodeW9.children = Except.ok [] ∧
    deploy matsC3 tblC3 nodeW9 =
      Except.ok (Object.mk nodeW9.name
        (some (Transform.from_mat4 (convertMatrix nodeW9.transformation))) none []) :=
  ⟨rfl, rfl, rfl, c9_zero_mesh_no_material_lookup matsC3 tblC3 nodeW9 [] rfl rfl rfl⟩

/-- Claim C10.  On a node with two or more mesh references, all synthetic
mesh children are attached to the container before any deployed import
child is reparented under it: the container's child list is the synthetic
children followed by the deployed import children. -/
theorem c10_synthetic_before_children (materials : String → Option MaterialHandle)
    (meshTable : Nat → Option MeshHandle) (node : Node) (o : Object)
    (h2 : 2 ≤ node.meshes.length) (h : deploy materials meshTable node = Except.ok o) :
    ∃ synth cs, syntheticChildren materials meshTable node.name node.meshes 0 = Except.ok synth ∧
      deployList materials meshTable node.children = Except.ok cs ∧
      synth.length = node.meshes.length ∧
      o.children = synth ++ cs := by
  cases node with
  | mk name tr ms children =>
    simp only [Node.meshes] at h2 ⊢
    obtain ⟨cs, obj, hcs, ho, hbranch⟩ := deploy_ok_shape h
    subst ho
    rcases hbranch with ⟨hlen, _⟩ | ⟨hlen, synth, hs, hobj⟩
    · omega
    · subst hobj
      exact ⟨synth, cs, hs, hcs, syntheticChildren_length hs,
        by simp [Object.attach, Object.children]⟩

/-- Witness for C10 on a two-mesh node with one ordinary child. -/
theorem c10_synthetic_before_children_witness :
    2 ≤ nodeW10.meshes.length ∧
    deploy matsW10 tbl0 nodeW10 = Except.ok w10Object ∧
    (∃ synth cs,
      syntheticChildren matsW10 tbl0 nodeW10.name nodeW10.meshes 0 = Except.ok synth ∧
      deployList matsW10 tbl0 nodeW10.children = Except.ok cs ∧
      synth.length = nodeW10.meshes.length ∧
      w10Object.children = synth ++ cs) :=
  ⟨by decide, rfl,
    c10_synthetic_before_children matsW10 tbl0 nodeW10 w10Object (by decide) rfl⟩

theorem unwrap_some {α : Type} (e : DeployError) (a : α) :
    unwrap e (some a) = Except.ok a := rfl

/-- A failing child list makes the node's deployment fail with the same
error. -/
theorem deploy_error_of_children {materials : String → Option MaterialHandle}
    {meshTable : Nat → Option MeshHandle} {node : Node} {e : DeployError}
    (h : deployList materials meshTable node.children = Except.error e) :
    deploy materials meshTable node = Except.error e := by
  cases node with
  | mk name tr ms children =>
    simp only [Node.children] at h
    simp only [deploy]
    rw [h, exceptBind_error]

/-- If some member of a node list fails to deploy, the whole list fails. -/
theorem deployList_error_of_mem {materials : String → Option MaterialHandle}
    {meshTable : Nat → Option MeshHandle} {c : Node} {e : DeployError} :
    ∀ {l : List Node}, c ∈ l → deploy materials meshTable c = Except.error e →
      ∃ e', deployList materials meshTable l = Except.error e' := by
  intro l
  induction l with
  | nil => intro hmem; exact absurd hmem (List.not_mem_nil c)
  | cons n rest ih =>
    intro hmem h
    rcases List.mem_cons.mp hmem with rfl | hmem'
    · exact ⟨e, by simp only [deployList]; rw [h, exceptBind_error]⟩
    · cases hn : deploy materials meshTable n with
      | error e'' => exact ⟨e'', by simp only [deployList]; rw [hn, exceptBind_error]⟩
      | ok o =>
        obtain ⟨e', hrest⟩ := ih hmem' h
        exact ⟨e', by
          simp only [deployList]
          rw [hn, exceptBind_ok_eval, hrest, exceptBind_error]⟩

/-- A deployment failure anywhere in a subtree aborts the deployment of
every tree containing it: no object tree is produced at all. -/
theorem occurs_error {materials : String → Option MaterialHandle}
    {meshTable : Nat → Option MeshHandle} {n t : Node} {e : DeployError}
    (hocc : Occurs n t) (h : deploy materials meshTable n = Except.error e) :
    ∃ e', deploy materials meshTable t = Except.error e' := by
  induction hocc with
  | refl => exact ⟨e, h⟩
  | child hmem hocc ih =>
    obtain ⟨e', hc⟩ := ih
    obtain ⟨e'', hl⟩ := deployList_error_of_mem hmem hc
    exact ⟨e'', deploy_error_of_children hl⟩

/-- The synthetic-children loop fails immediately with `MaterialNotFound`
when the node's name has no material entry and there is at least one mesh. -/
theorem synth_error_material {materials : String → Option MaterialHandle}
    {meshTable : Nat → Option MeshHandle} {name : String} {l : List Nat}
    (hmat : materials name = none) (hne : l ≠ []) (index : Nat) :
    syntheticChildren materials meshTable name l index =
      Except.error DeployError.MaterialNotFound := by
  cases l with
  | nil => exact absurd rfl hne
  | cons m rest =>
    simp only [syntheticChildren]
    rw [hmat, unwrap_none, exceptBind_error]

/-- The synthetic-children loop fails with `MeshIndexOutOfRange` when the
material lookup succeeds and some referenced mesh index has no entry. -/
theorem synth_error_mesh {materials : String → Option MaterialHandle}
    {meshTable : Nat → Option MeshHandle} {name : String} {material : MaterialHandle}
    {bad : Nat} (hmat : materials name = some material) (htbl : meshTable bad = none) :
    ∀ {l : List Nat}, bad ∈ l → ∀ index,
      syntheticChildren materials meshTable name l index =
        Except.error DeployError.MeshIndexOutOfRange := by
  intro l
  induction l with
  | nil => intro hmem; exact absurd hmem (List.not_mem_nil bad)
  | cons m rest ih =>
    intro hmem index
    simp only [syntheticChildren]
    rw [hmat, unwrap_some, exceptBind_ok_eval]
    rcases List.mem_cons.mp hmem with rfl | hmem'
    · rw [htbl, unwrap_none, exceptBind_error]
    · cases hm : meshTable m with
      | none => rw [unwrap_none, exceptBind_error]
      | some mh =>
        rw [unwrap_some, exceptBind_ok_eval, ih hmem' (index + 1), exceptBind_error]

/-- Counterexample to claim C3 as stated: node "N" has one mesh reference
and no material entry, but its child "C" references a missing mesh index,
so the deployment of "N" fails with `MeshIndexOutOfRange`, not
`MaterialNotFound` (children are deployed before the node's own material
lookup). -/
theorem c3_counterexample :
    1 ≤ nodeC3.meshes.length ∧ matsC3 nodeC3.name = none ∧
    deploy matsC3 tblC3 nodeC3 = Except.error DeployError.MeshIndexOutOfRange ∧
    DeployError.MeshIndexOutOfRange ≠ DeployError.MaterialNotFound :=
  ⟨by decide, rfl, rfl, by decide⟩

/-- Claim C3, amended.  A node with at least one mesh reference and no
material entry always fails to deploy; it fails with `MaterialNotFound`
whenever its children deploy successfully, and any tree containing such a
node fails to deploy as well, so no object tree is produced (in this
model a failed deployment attaches nothing to the scene). -/
theorem c3_missing_material (materials : String → Option MaterialHandle)
    (meshTable : Nat → Option MeshHandle) (node : Node)
    (hmesh : 1 ≤ node.meshes.length) (hmat : materials node.name = none) :
    (∀ cs, deployList materials meshTable node.children = Except.ok cs →
      deploy materials meshTable node = Except.error DeployError.MaterialNotFound) ∧
    (∀ t, Occurs node t → ∃ e, deploy materials meshTable t = Except.error e) := by
  have hnode : ∀ cs, deployList materials meshTable node.children = Except.ok cs →
      deploy materials meshTable node = Except.error DeployError.MaterialNotFound := by
    intro cs hcs
    cases node with
    | mk name tr ms children =>
      simp only [Node.meshes] at hmesh
      simp only [Node.name] at hmat
      simp only [Node.children] at hcs
      simp only [deploy]
      rw [hcs, exceptBind_ok_eval]
      by_cases hlen : ms.length = 1
      · rw [dif_pos hlen, hmat, unwrap_none, exceptBind_error]
      · rw [dif_neg hlen,
          synth_error_material hmat (by intro h0; subst h0; simp at hmesh) 0,
          exceptBind_error]
  refine ⟨hnode, fun t hocc => ?_⟩
  obtain ⟨e, he⟩ : ∃ e, deploy materials meshTable node = Except.error e := by
    cases hd : deployList materials meshTable node.children with
    | error e => exact ⟨e, deploy_error_of_children hd⟩
    | ok cs => exact ⟨_, hnode cs hd⟩
  exact occurs_error hocc he

/-- Witness for the amended C3: a one-mesh leaf named "X" with no material
entry fails with `MaterialNotFound`. -/
theorem c3_missing_material_witness :
    1 ≤ nodeW3.meshes.length ∧ matsC3 nodeW3.name = none ∧
    deployList matsC3 tblC3 nodeW3.children = Except.ok [] ∧
    deploy matsC3 tblC3 nodeW3 = Except.error DeployError.MaterialNotFound :=
  ⟨by decide, rfl, rfl,
    (c3_missing_material matsC3 tblC3 nodeW3 (by decide) rfl).1 [] rfl⟩

/-- Counterexample to claim C5 as stated: node "N" has a valid material
and references the missing mesh index 9, but its child "C" has a missing
material, so the deployment of "N" fails with `MaterialNotFound`, not
`MeshIndexOutOfRange`. -/
theorem c5_counterexample :
    matsC5 nodeC5.name = some ⟨1⟩ ∧ 9 ∈ nodeC5.meshes ∧ tblC3 9 = none ∧
    deploy matsC5 tblC3 nodeC5 = Except.error DeployError.MaterialNotFound ∧
    DeployError.MaterialNotFound ≠ DeployError.MeshIndexOutOfRange :=
  ⟨rfl, by decide, rfl, rfl, by decide⟩

/-- Claim C5, amended.  A node whose material lookup succeeds but that
references a mesh index with no MeshTable entry fails with
`MeshIndexOutOfRange` whenever its children deploy successfully, and any
tree containing such a node fails to deploy, so the failure is fatal to
the whole deployment. -/
theorem c5_missing_mesh (materials : String → Option MaterialHandle)
    (meshTable : Nat → Option MeshHandle) (node : Node)
    (material : MaterialHandle) (bad : Nat)
    (hmat : materials node.name = some material) (hbad : bad ∈ node.meshes)
    (htbl : meshTable bad = none) :
    (∀ cs, deployList materials meshTable node.children = Except.ok cs →
      deploy materials meshTable node = Except.error DeployError.MeshIndexOutOfRange) ∧
    (∀ t, Occurs node t → ∃ e, deploy materials meshTable t = Except.error e) := by
  have hnode : ∀ cs, deployList materials meshTable node.children = Except.ok cs →
      deploy materials meshTable node = Except.error DeployError.MeshIndexOutOfRange := by
    intro cs hcs
    cases node with
    | mk name tr ms children =>
      simp only [Node.name] at hmat
      simp only [Node.meshes] at hbad
      simp only [Node.children] at hcs
      simp only [deploy]
      rw [hcs, exceptBind_ok_eval]
      by_cases hlen : ms.length = 1
      · rw [dif_pos hlen, hmat, unwrap_some, exceptBind_ok_eval]
        obtain ⟨x, hx⟩ : ∃ x, ms = [x] := by
          cases ms with
          | nil => simp at hlen
          | cons a rest =>
            cases rest with
            | nil => exact ⟨a, rfl⟩
            | cons b r => simp at hlen
        subst hx
        have hbx : bad = x := by simpa using hbad
        subst hbx
        have hg : ∀ p : 0 < ([bad] : List Nat).length, ([bad] : List Nat).get ⟨0, p⟩ = bad :=
          fun _ => rfl
        simp only [hg]
        rw [htbl, unwrap_none, exceptBind_error]
      · rw [dif_neg hlen, synth_error_mesh hmat htbl hbad 0, exceptBind_error]
  refine ⟨hnode, fun t hocc => ?_⟩
  obtain ⟨e, he⟩ : ∃ e, deploy materials meshTable node = Except.error e := by
    cases hd : deployList materials meshTable node.children with
    | error e => exact ⟨e, deploy_error_of_children hd⟩
    | ok cs => exact ⟨_, hnode cs hd⟩
  exact occurs_error hocc he

/-- Witness for the amended C5: a leaf "Y" with a valid material and the
missing mesh index 9 fails with `MeshIndexOutOfRange`. -/
theorem c5_missing_mesh_witness :
    matsC5 nodeW5.name = some ⟨2⟩ ∧ 9 ∈ nodeW5.meshes ∧ tblC3 9 = none ∧
    deployList matsC5 tblC3 nodeW5.children = Except.ok [] ∧
    deploy matsC5 tblC3 nodeW5 = Except.error DeployError.MeshIndexOutOfRange :=
  ⟨rfl, by decide, rfl, rfl,
    (c5_missing_mesh matsC5 tblC3 nodeW5 ⟨2⟩ 9 rfl (by decide) rfl).1 [] rfl⟩

/-! Lemmas about MeshTable construction.  `tableGet` is lookup in the map
built by `HashMap::from_iter` from the insertion sequence: the last pair
with a given key wins. -/

theorem tableGet_foldl_init (k : Nat) :
    ∀ (ps : List (Nat × MeshHandle)) (init : Option MeshHandle),
      ps.foldl (fun acc p => if p.1 = k then some p.2 else acc) init =
        match tableGet ps k with
        | some v => some v
        | none => init := by
  intro ps
  induction ps with
  | nil =>
    intro init
    simp [tableGet]
  | cons p ps ih =>
    intro init
    have hps : tableGet (p :: ps) k =
        match tableGet ps k with
        | some v => some v
        | none => if p.1 = k then some p.2 else none := by
      simp only [tableGet, List.foldl_cons]
      exact ih _
    rw [List.foldl_cons, ih _, hps]
    cases htg : tableGet ps k with
    | some v => rfl
    | none => by_cases hp : p.1 = k <;> simp [hp]

theorem tableGet_cons (p : Nat × MeshHandle) (ps : List (Nat × MeshHandle)) (k : Nat) :
    tableGet (p :: ps) k =
      match tableGet ps k with
      | some v => some v
      | none => if p.1 = k then some p.2 else none := by
  simp only [tableGet, List.foldl_cons]
  exact tableGet_foldl_init k ps _

theorem meshPairs_key_mem {p : Nat × MeshHandle} :
    ∀ {l : List Mesh} {start : Nat}, p ∈ meshPairs l start →
      ∃ j, j < l.length ∧ p.1 = (start + j) % 2 ^ 32 := by
  intro l
  induction l with
  | nil => intro start h; simp [meshPairs] at h
  | cons m rest ih =>
    intro start h
    simp only [meshPairs] at h
    rcases List.mem_cons.mp h with rfl | h'
    · exact ⟨0, by simp, by simp⟩
    · obtain ⟨j, hj, hkey⟩ := ih h'
      refine ⟨j + 1, by simp; omega, ?_⟩
      rw [hkey]
      congr 1
      omega

theorem tableGet_eq_none {k : Nat} :
    ∀ {ps : List (Nat × MeshHandle)}, (∀ p ∈ ps, p.1 ≠ k) → tableGet ps k = none := by
  intro ps
  induction ps with
  | nil => intro; rfl
  | cons p ps ih =>
    intro h
    simp only [tableGet, List.foldl_cons]
    rw [if_neg (h p (List.mem_cons_self p ps))]
    exact ih fun q hq => h q (List.mem_cons_of_mem p hq)

theorem tableGet_meshPairs :
    ∀ (l : List Mesh) (start i : Nat) (h : i < l.length),
      start + l.length ≤ 2 ^ 32 →
      tableGet (meshPairs l start) (start + i) =
        some (MeshHandle.new (l.get ⟨i, h⟩)) := by
  intro l
  induction l with
  | nil => intro start i h; simp at h
  | cons m rest ih =>
    intro start i h hb
    simp only [meshPairs]
    rw [tableGet_cons]
    cases i with
    | zero =>
      have hnone : tableGet (meshPairs rest (start + 1)) (start + 0) = none := by
        apply tableGet_eq_none
        intro p hp
        obtain ⟨j, hj, hkey⟩ := meshPairs_key_mem hp
        rw [hkey]
        have h1 : start + 1 + j < 2 ^ 32 := by
          simp only [List.length_cons] at hb
          omega
        rw [Nat.mod_eq_of_lt h1]
        omega
      rw [hnone]
      have hlt : start < 2 ^ 32 := by
        simp only [List.length_cons] at hb
        omega
      have hmod : start % 2 ^ 32 = start := Nat.mod_eq_of_lt hlt
      simp [hmod]
      omega
    | succ j =>
      have harr : start + (j + 1) = start + 1 + j := by omega
      rw [harr]
      have hb' : start + 1 + rest.length ≤ 2 ^ 32 := by
        simp only [List.length_cons] at hb
        omega
      have hj : j < rest.length := by
        simp only [List.length_cons] at h
        omega
      rw [ih (start + 1) j hj hb']
      rfl

theorem meshPairs_append (x : Mesh) :
    ∀ (l : List Mesh) (start : Nat),
      meshPairs (l ++ [x]) start =
        meshPairs l start ++ [((start + l.length) % 2 ^ 32, MeshHandle.new x)] := by
  intro l
  induction l with
  | nil => intro start; simp [meshPairs]
  | cons m rest ih =>
    intro start
    have hl : (m :: rest) ++ [x] = m :: (rest ++ [x]) := rfl
    rw [hl]
    simp only [meshPairs, List.length_cons]
    rw [ih (start + 1)]
    simp only [List.cons_append]
    have harith : start + 1 + rest.length = start + (rest.length + 1) := by omega
    rw [harith]

theorem tableGet_append_single (ps : List (Nat × MeshHandle)) (q : Nat × MeshHandle)
    (k : Nat) :
    tableGet (ps ++ [q]) k = if q.1 = k then some q.2 else tableGet ps k := by
  simp only [tableGet, List.foldl_append, List.foldl_cons, List.foldl_nil]

/-- Counterexample to claim C6 as stated: the enumeration position is cast
to `u32` before it becomes a key, so on a mesh list of length 2^32 + 1 the
last mesh wraps around to key 0 and (with `HashMap` insert semantics)
overwrites the entry of the mesh at position 0: key 0 holds the mesh at
position 2^32, not the mesh at position 0. -/
theorem c6_counterexample :
    tableGet (meshes (List.range (2 ^ 32 + 1))) 0 = some (MeshHandle.new (2 ^ 32)) ∧
    (List.range (2 ^ 32 + 1)).length = 2 ^ 32 + 1 ∧
    (List.range (2 ^ 32 + 1)).headD 0 = 0 ∧
    MeshHandle.new (2 ^ 32) ≠ MeshHandle.new 0 := by
  refine ⟨?_, by rw [List.length_range], ?_, ?_⟩
  · rw [meshes, List.range_succ, meshPairs_append, tableGet_append_single,
      List.length_range]
    norm_num
  · rw [List.range_succ_eq_map]
    rfl
  · intro hcontra
    have hdata : (2 ^ 32 : Nat) = 0 := congrArg MeshHandle.data hcontra
    exact absurd hdata (by positivity)

/-- Claim C6, amended.  For a mesh list of length at most 2^32 (the `u32`
cast of the enumeration position is then injective), the constructed table
has exactly the dense keys 0 .. n-1, and key i holds a fresh handle
wrapping the mesh at position i of the importer's list. -/
theorem c6_mesh_table (l : List Mesh) (hlen : l.length ≤ 2 ^ 32) :
    (∀ i (h : i < l.length),
      tableGet (meshes l) i = some (MeshHandle.new (l.get ⟨i, h⟩))) ∧
    (∀ k, l.length ≤ k → tableGet (meshes l) k = none) := by
  constructor
  · intro i h
    have := tableGet_meshPairs l 0 i h (by omega)
    simpa [meshes] using this
  · intro k hk
    apply tableGet_eq_none
    intro p hp
    simp only [meshes] at hp
    obtain ⟨j, hj, hkey⟩ := meshPairs_key_mem hp
    rw [hkey, Nat.mod_eq_of_lt (by omega)]
    omega

/-- Witness for the amended C6 on the three-mesh list `[4, 5, 6]`. -/
theorem c6_mesh_table_witness :
    ([4, 5, 6] : List Mesh).length ≤ 2 ^ 32 ∧
    tableGet (meshes [4, 5, 6]) 2 = some (MeshHandle.new 6) ∧
    tableGet (meshes [4, 5, 6]) 3 = none :=
  ⟨by norm_num, (c6_mesh_table [4, 5, 6] (by norm_num)).1 2 (by norm_num),
    (c6_mesh_table [4, 5, 6] (by norm_num)).2 3 (by norm_num)⟩

/-! Lemmas for the camera-update claims. -/

theorem vec_add_def (a b : Vec3) : a + b = Vec3.add a b := rfl

theorem vec_smul_def (c : ℝ) (v : Vec3) : c • v = Vec3.smul c v := rfl

theorem quat_mul_def (p q : Quat) : p * q = Quat.mul p q := rfl

theorem vec_add_zero_smul (v w : Vec3) : v + (0 : ℝ) • w = v := by
  rw [vec_smul_def, vec_add_def]
  cases v
  cases w
  simp [Vec3.add, Vec3.smul]

theorem fromAxisAngle_zero (axis : Vec3) :
    Quat.fromAxisAngle axis 0 = Quat.mk 0 0 0 1 := by
  simp [Quat.fromAxisAngle]

theorem quat_mul_id (q : Quat) : q * Quat.mk 0 0 0 1 = q := by
  rw [quat_mul_def]
  cases q
  simp [Quat.mul]

/-- Claim C7.  An update tick with keyboard axes "w" = 1 and
"s" = "d" = "a" = "up" = "down" = "left" = "right" = 0 and a delta time
of 0.1 s (written `1 / 10`) moves the camera's position by exactly
`0.1 * forward` and leaves its rotation (and scale) unchanged. -/
theorem c7_camera_update (t : CamTransform) :
    update c7Input (1 / 10 : ℝ) t =
      some { t with position := t.position + (1 / 10 : ℝ) • t.forward } := by
  have hstep : update c7Input (1 / 10 : ℝ) t =
      some (updateCore (1 / 10) 1 0 0 0 0 0 0 0 t) := rfl
  rw [hstep]
  congr 1
  simp only [updateCore]
  have hz : (1 / 10 : ℝ) * (1 - 0) = 1 / 10 := by ring
  have hx : (1 / 10 : ℝ) * (0 - 0) = 0 := by ring
  have hang : (0 : ℝ) * radians 120 = 0 := by ring
  rw [hz, hx, hang, fromAxisAngle_zero, fromAxisAngle_zero, quat_mul_id, quat_mul_id,
    vec_add_zero_smul]

/-- Claim C8.  During the update tick, a query of any of the eight named
inputs that is not registered makes the whole update fail (the `.unwrap()`
is fatal), rather than silently defaulting to a value. -/
theorem c8_missing_input (input : String → Option ℝ) (delta : ℝ) (t : CamTransform)
    (name : String)
    (hmem : name ∈ (["w", "s", "d", "a", "up", "down", "left", "right"] : List String))
    (hnone : input name = none) :
    update input delta t = none := by
  simp only [List.mem_cons, List.not_mem_nil, or_false] at hmem
  rcases hmem with rfl | rfl | rfl | rfl | rfl | rfl | rfl | rfl <;>
    (unfold update; split <;> simp_all)

/-- Witness for C8: with no input registered at all, the update tick
produces no updated transform. -/
theorem c8_missing_input_witness :
    ("w" ∈ (["w", "s", "d", "a", "up", "down", "left", "right"] : List String)) ∧
    (fun _ : String => (none : Option ℝ)) "w" = none ∧
    update (fun _ : String => none) 0 camT0 = none :=
  ⟨by simp, rfl, c8_missing_input (fun _ => none) 0 camT0 "w" (by simp) rfl⟩

end NeoMMD
